import Mathlib

/-!
Verification of the Book-tracking application core (src/app.js).

The JavaScript source is shallowly embedded: every definition below mirrors
the corresponding function of `src/app.js` (first, richest variant in the
file).  Machine numbers that the code keeps non-negative (log amounts, unit
totals, streak counters) are `Nat`; calendar dates are day indices in `Int`
(a `new Date(s); setHours(0,0,0,0)` value, so that subtraction of dates is
the exact day difference used by the code); strings stay `String`.
`Array.prototype.sort` is required to be stable by the language standard, so
it is embedded as a stable insertion sort by the same key, which yields the
identical output list.  Persistence (`localStorage.setItem` wrappers such as
`saveBooks`) is recorded as a list of written slices returned next to the
updated state; the DOM render calls have no effect on the model state and
are omitted.
-/

namespace BookTracking

/-- A progress log entry `{date, amount}` (src/app.js, Book.logs). -/
structure Log where
  date : Int
  amount : Nat
deriving Repr, DecidableEq

/-- The `Book` class of src/app.js (constructor fields plus the fields
initialised there: `logs`, `status`, `completed`). -/
structure Book where
  id : String
  name : String
  author : String
  type : String
  total : Nat
  category : String
  coverUrl : String
  logs : List Log
  status : String
  completed : Bool
deriving Repr, DecidableEq

/-- `Book.getTotalProgress`: `this.logs.reduce((sum, log) => sum + log.amount, 0)`. -/
def Book.getTotalProgress (b : Book) : Nat :=
  (b.logs.map Log.amount).sum

/-- `Book.getProgressPercentage`:
`if (this.total === 0) return 0; return Math.min(Math.round((progress / this.total) * 100), 100)`.
For non-negative operands `Math.round x = ⌊x + 1/2⌋`, so
`Math.round (100 * p / t) = (200 * p + t) / (2 * t)` in `Nat` floor division. -/
def Book.getProgressPercentage (b : Book) : Nat :=
  if b.total = 0 then 0
  else min ((200 * b.getTotalProgress + b.total) / (2 * b.total)) 100

/-- `Book.getRemainingAmount`: `Math.max(this.total - progress, 0)`;
truncated `Nat` subtraction is exactly that. -/
def Book.getRemainingAmount (b : Book) : Nat :=
  b.total - b.getTotalProgress

/-- `Book.updateStatus`: planned when progress is 0; completed (and
`completed = true`) when progress reaches `total`; in-progress otherwise. -/
def Book.updateStatus (b : Book) : Book :=
  let progress := b.getTotalProgress
  if progress = 0 then { b with status := "planned" }
  else if b.total ≤ progress then { b with status := "completed", completed := true }
  else { b with status := "in-progress" }

/-- An entry of the activity feed: `{type, message, bookName, date}`. -/
structure Activity where
  type : String
  message : String
  bookName : String
  date : String
deriving Repr, DecidableEq

/-- A persisted achievement record `{id, unlocked}`. -/
structure Ach where
  id : String
  unlocked : Bool
deriving Repr, DecidableEq

/-- The persisted slices written by the `save*` wrappers
(`saveBooks`, `saveStreaks`, `saveActivityFeed`, `saveAchievements`). -/
inductive Slice where
  | books
  | streaks
  | activityFeed
  | achievements
deriving Repr, DecidableEq

/-- The mutable application state of src/app.js (the globals `books`,
`currentStreak`, `longestStreak`, `activityFeed`, `achievements`,
`dailyGoal`). -/
structure AppState where
  books : List Book
  currentStreak : Nat
  longestStreak : Nat
  activityFeed : List Activity
  achievements : List Ach
  dailyGoal : Nat
deriving Repr, DecidableEq

/-- `addActivity(type, message, bookName)`: unshift a new event carrying the
current ISO timestamp, pop the last entry when the feed exceeds 50, and save
the feed. -/
def addActivity (ty msg bookName nowIso : String) (s : AppState) :
    AppState × List Slice :=
  let feed := ({ type := ty, message := msg, bookName := bookName,
                 date := nowIso } : Activity) :: s.activityFeed
  let feed := if 50 < feed.length then feed.dropLast else feed
  ({ s with activityFeed := feed }, [Slice.activityFeed])

/-- The fixed achievement catalog `achievementsList` (id and display name;
the `check` closures are embedded as `achievementCheck`). -/
def achievementsList : List (String × String) :=
  [("first-book", "Първа книга"),
   ("five-books", "5 книги"),
   ("first-complete", "Първо завършване"),
   ("five-complete", "5 завършени"),
   ("streak-7", "7 дни серия"),
   ("streak-30", "30 дни серия")]

/-- The `check` closure of each catalog entry, reading the live globals
`books` and `currentStreak`. -/
def achievementCheck (s : AppState) (aid : String) : Bool :=
  if aid = "first-book" then decide (1 ≤ s.books.length)
  else if aid = "five-books" then decide (5 ≤ s.books.length)
  else if aid = "first-complete" then s.books.any (fun b => b.completed)
  else if aid = "five-complete" then
    decide (5 ≤ (s.books.filter (fun b => b.completed)).length)
  else if aid = "streak-7" then decide (7 ≤ s.currentStreak)
  else if aid = "streak-30" then decide (30 ≤ s.currentStreak)
  else false

/-- `userAch.unlocked = true` mutates the object returned by
`achievements.find`, i.e. the first record with the given id. -/
def setUnlockedFirst : List Ach → String → List Ach
  | [], _ => []
  | a :: rest, aid =>
    if a.id = aid then { a with unlocked := true } :: rest
    else a :: setUnlockedFirst rest aid

/-- One iteration of the `achievementsList.forEach` loop in
`checkAchievements`; the accumulator carries the state, the writes so far
and the `updated` flag. -/
def checkStep (nowIso : String) (acc : AppState × List Slice × Bool)
    (e : String × String) : AppState × List Slice × Bool :=
  match acc.1.achievements.find? (fun a => a.id = e.1) with
  | some a =>
    if !a.unlocked && achievementCheck acc.1 e.1 then
      let st1 := { acc.1 with achievements := setUnlockedFirst acc.1.achievements e.1 }
      let r := addActivity "Постижение" ("Отключено: " ++ e.2) "" nowIso st1
      (r.1, acc.2.1 ++ r.2, true)
    else acc
  | none => acc

/-- `checkAchievements()`: evaluate every not-yet-unlocked catalog entry,
flip newly satisfied ones to `unlocked = true` with one activity event each,
and save the achievements slice when anything changed. -/
def checkAchievements (nowIso : String) (s : AppState) : AppState × List Slice :=
  let r := achievementsList.foldl (checkStep nowIso) (s, [], false)
  if r.2.2 then (r.1, r.2.1 ++ [Slice.achievements]) else (r.1, r.2.1)

/-- Stable insertion of a log into a date-descending list (equal dates keep
their existing order, as JS stable sort does). -/
def insertLogDesc (x : Log) : List Log → List Log
  | [] => [x]
  | y :: ys => if y.date < x.date then x :: y :: ys else y :: insertLogDesc x ys

/-- `logs.sort((a, b) => new Date(b.date) - new Date(a.date))`: stable sort
by date descending. -/
def sortLogsDesc (l : List Log) : List Log :=
  l.foldl (fun acc x => insertLogDesc x acc) []

/-- Stable insertion of a date into a descending list of dates. -/
def insertIntDesc (x : Int) : List Int → List Int
  | [] => [x]
  | y :: ys => if y < x then x :: y :: ys else y :: insertIntDesc x ys

/-- `Array.from(allDates).sort((a, b) => new Date(b) - new Date(a))`. -/
def sortIntDesc (l : List Int) : List Int :=
  l.foldl (fun acc x => insertIntDesc x acc) []

/-- Insertion-order deduplication, as a JS `Set` iterates. -/
def dedupFirstAux : List Int → List Int → List Int
  | _, [] => []
  | seen, d :: rest =>
    if seen.contains d then dedupFirstAux seen rest
    else d :: dedupFirstAux (seen ++ [d]) rest

/-- The `allDates` set of `updateStreaks`: every log date of every book,
first occurrences kept. -/
def allLogDates (books : List Book) : List Int :=
  dedupFirstAux [] (books.flatMap (fun b => b.logs.map Log.date))

/-- The current-streak loop of `updateStreaks`: count the leading dates
equal to `today - i`, stopping at the first mismatch. -/
def currentRunAux (today : Int) : List Int → Nat → Nat
  | [], _ => 0
  | d :: rest, i =>
    if d = today - (i : Int) then 1 + currentRunAux today rest (i + 1) else 0

/-- The longest-streak loop of `updateStreaks`: scan adjacent pairs, extend
the running streak on a day difference of exactly 1, reset it to 1
otherwise, and track the maximum. -/
def longestRunAux : List Int → Nat → Nat → Nat
  | [], _, maxS => maxS
  | [_], _, maxS => maxS
  | a :: b :: rest, temp, maxS =>
    if a - b = 1 then longestRunAux (b :: rest) (temp + 1) (max maxS (temp + 1))
    else longestRunAux (b :: rest) 1 maxS

/-- `updateStreaks()` as a function of today's date, the book collection and
the previously stored `longestStreak`; returns the new
`(currentStreak, longestStreak)`.  Empty date set: both are set to 0.
Otherwise `longestStreak = Math.max(longestStreak, maxStreak, currentStreak)`. -/
def updateStreaks (today : Int) (books : List Book) (longest0 : Nat) : Nat × Nat :=
  let allDates := allLogDates books
  if allDates.length = 0 then (0, 0)
  else
    let sorted := sortIntDesc allDates
    let current := currentRunAux today sorted 0
    let maxRun := longestRunAux sorted 1 1
    (current, max (max longest0 maxRun) current)

/-- In-place mutation of the object returned by `books.find`: replace the
first book with the given id. -/
def replaceFirst (bookId : String) (nb : Book) : List Book → List Book
  | [] => []
  | x :: xs => if x.id = bookId then nb :: xs else x :: replaceFirst bookId nb xs

/-- `String.prototype.trim`: strip leading and trailing whitespace. -/
def jsTrim (s : String) : String :=
  String.mk (((s.data.dropWhile Char.isWhitespace).reverse.dropWhile
    Char.isWhitespace).reverse)

/-- `handleAddBook`: trim the inputs, reject if name or author is empty or
the computed total is non-positive, otherwise push a fresh planned book,
save it, record an activity event and re-check achievements. -/
def handleAddBook (nowIso freshId rawName rawAuthor ty category rawCoverUrl : String)
    (total : Int) (s : AppState) : AppState × List Slice :=
  let name := jsTrim rawName
  let author := jsTrim rawAuthor
  let coverUrl := jsTrim rawCoverUrl
  if name = "" ∨ author = "" ∨ total ≤ 0 then (s, [])
  else
    let book : Book :=
      { id := freshId, name := name, author := author, type := ty,
        total := total.toNat, category := category, coverUrl := coverUrl,
        logs := [], status := "planned", completed := false }
    let s1 := { s with books := s.books ++ [book] }
    let r1 := addActivity "Добавяне" ("Добавена книга \"" ++ name ++ "\"")
      name nowIso s1
    let r2 := checkAchievements nowIso r1.1
    (r2.1, [Slice.books] ++ r1.2 ++ r2.2)

/-- `handleAddLog`: no-op on an unknown book id; reject a non-positive
amount; otherwise push `{date, amount}`, re-sort the logs date-descending,
recompute the status, save the books, recompute and save the streaks,
record an activity event and re-check achievements. -/
def handleAddLog (today : Int) (nowIso bookId : String) (date : Int)
    (amount : Int) (s : AppState) : AppState × List Slice :=
  match s.books.find? (fun b => b.id = bookId) with
  | none => (s, [])
  | some book =>
    if amount ≤ 0 then (s, [])
    else
      let book1 := ({ book with
        logs := sortLogsDesc (book.logs ++ [{ date := date, amount := amount.toNat }]) }
        : Book).updateStatus
      let s1 := { s with books := replaceFirst bookId book1 s.books }
      let st := updateStreaks today s1.books s1.longestStreak
      let s2 := { s1 with currentStreak := st.1, longestStreak := st.2 }
      let unit := if book.type = "paper" then "страници" else "минути"
      let r1 := addActivity "Прогрес"
        (toString amount ++ " " ++ unit ++ " за \"" ++ book.name ++ "\"")
        book.name nowIso s2
      let r2 := checkAchievements nowIso r1.1
      (r2.1, [Slice.books, Slice.streaks] ++ r1.2 ++ r2.2)

/-- `toggleBookCompletion`: no-op on an unknown id.  When the flag is off,
first push a synthetic log dated today for the remaining amount (if any)
and record a completion activity; then flip the flag, recompute the status,
save the books, recompute and save the streaks, and re-check achievements. -/
def toggleBookCompletion (today : Int) (nowIso bookId : String) (s : AppState) :
    AppState × List Slice :=
  match s.books.find? (fun b => b.id = bookId) with
  | none => (s, [])
  | some book =>
    let step1 :=
      if book.completed then (book, s, ([] : List Slice))
      else
        let remaining := book.getRemainingAmount
        let bk :=
          if 0 < remaining then
            { book with
              logs := sortLogsDesc (book.logs ++ [{ date := today, amount := remaining }]) }
          else book
        let s' := { s with books := replaceFirst bookId bk s.books }
        let r := addActivity "Завършване"
          ("Завършена книга \"" ++ book.name ++ "\"") book.name nowIso s'
        (bk, r.1, r.2)
    let book1 := step1.1
    let s1 := step1.2.1
    let w1 := step1.2.2
    let book2 := ({ book1 with completed := !book1.completed } : Book).updateStatus
    let s2 := { s1 with books := replaceFirst bookId book2 s1.books }
    let st := updateStreaks today s2.books s2.longestStreak
    let s3 := { s2 with currentStreak := st.1, longestStreak := st.2 }
    let r2 := checkAchievements nowIso s3
    (r2.1, w1 ++ [Slice.books, Slice.streaks] ++ r2.2)

/-- `deleteBook`: looks the book up, asks for confirmation, then records the
deletion activity (reading `book.name` — a `TypeError` when the id is
unknown, modelled as the `Except.error` outcome with the state untouched),
filters the book out and saves. -/
def deleteBook (nowIso bookId : String) (confirmed : Bool) (s : AppState) :
    Except String Unit × AppState × List Slice :=
  let found := s.books.find? (fun b => b.id = bookId)
  if confirmed then
    match found with
    | none => (Except.error "TypeError: cannot read name of undefined", s, [])
    | some book =>
      let r1 := addActivity "Изтриване"
        ("Изтрита книга \"" ++ book.name ++ "\"") book.name nowIso s
      let s2 := { r1.1 with books := r1.1.books.filter (fun b => b.id != bookId) }
      (Except.ok (), s2, r1.2 ++ [Slice.books])
  else (Except.ok (), s, [])

/-- `changeBookCategory`: no-op on an unknown id; otherwise overwrite the
category and save the books (no activity event, no streak recomputation). -/
def changeBookCategory (bookId newCategory : String) (s : AppState) :
    AppState × List Slice :=
  match s.books.find? (fun b => b.id = bookId) with
  | none => (s, [])
  | some book =>
    ({ s with books := replaceFirst bookId { book with category := newCategory } s.books },
     [Slice.books])

/-- The export document shape built by `exportData`. -/
structure ExportDoc where
  books : List Book
  currentStreak : Nat
  longestStreak : Nat
  activityFeed : List Activity
  achievements : List Ach
  dailyGoal : Nat
  exportDate : String
deriving Repr, DecidableEq

/-- `exportData()`: capture the snapshot, then record an export activity
event (which mutates the live feed after the capture). -/
def exportData (nowIso : String) (s : AppState) :
    ExportDoc × AppState × List Slice :=
  let doc : ExportDoc :=
    { books := s.books, currentStreak := s.currentStreak,
      longestStreak := s.longestStreak, activityFeed := s.activityFeed,
      achievements := s.achievements, dailyGoal := s.dailyGoal,
      exportDate := nowIso }
  let r := addActivity "Експорт" "Данните са експортирани" "" nowIso s
  (doc, r.1, r.2)

/-- The per-book reconstruction inside `importData`:
`new Book(id, name, author, type, total, category || 'mama', coverUrl || '')`
with `logs = logs || []`, `completed = completed || false`,
`status = status || 'planned'`.  On these string/list/bool typed fields the
`||` defaulting only fires on the empty string (the falsy case). -/
def importBook (b : Book) : Book :=
  { id := b.id, name := b.name, author := b.author, type := b.type,
    total := b.total,
    category := if b.category = "" then "mama" else b.category,
    coverUrl := if b.coverUrl = "" then "" else b.coverUrl,
    logs := b.logs,
    status := if b.status = "" then "planned" else b.status,
    completed := b.completed }

/-- `importData` on an already-parsed document: after confirmation, every
slice is replaced wholesale and saved (`currentStreak || 0` is the identity
on `Nat`; `dailyGoal` is only overwritten when truthy, i.e. non-zero), and
one import activity event is recorded at the end. -/
def importData (nowIso : String) (confirmed : Bool) (doc : ExportDoc)
    (s : AppState) : AppState × List Slice :=
  if confirmed then
    let s1 := { s with
      books := doc.books.map importBook,
      currentStreak := doc.currentStreak,
      longestStreak := doc.longestStreak,
      activityFeed := doc.activityFeed,
      achievements := doc.achievements,
      dailyGoal := if doc.dailyGoal ≠ 0 then doc.dailyGoal else s.dailyGoal }
    let r := addActivity "Импорт" "Данните са импортирани успешно" "" nowIso s1
    (r.1, [Slice.books, Slice.streaks, Slice.activityFeed, Slice.achievements] ++ r.2)
  else (s, [])

/-- The state right after first launch: empty collections, zero streaks,
default daily goal, the catalog's achievements all locked
(`initializeAchievements`). -/
def initialState : AppState :=
  { books := [], currentStreak := 0, longestStreak := 0, activityFeed := [],
    achievements := achievementsList.map (fun e => { id := e.1, unlocked := false }),
    dailyGoal := 50 }

/-- Pointwise monotonicity of the achievement table: same ids in the same
positions, and an unlocked entry never reverts to locked. -/
def AchMono (l l' : List Ach) : Prop :=
  List.Forall₂ (fun a b => a.id = b.id ∧ (a.unlocked = true → b.unlocked = true)) l l'

/-- A book at 999 of 1000 units: `Math.round (99.9) = 100`. -/
def nearTargetBook : Book :=
  { id := "1", name := "B", author := "A", type := "paper", total := 1000,
    category := "mama", coverUrl := "", logs := [{ date := 0, amount := 999 }],
    status := "in-progress", completed := false }

/-- A completed book whose logged progress already reaches the target. -/
def doneBook : Book :=
  { id := "1", name := "B", author := "A", type := "paper", total := 10,
    category := "mama", coverUrl := "", logs := [{ date := 0, amount := 10 }],
    status := "completed", completed := true }

/-- Store holding only `doneBook`. -/
def doneState : AppState := { initialState with books := [doneBook] }

/-- A book whose completed flag is set although the logged progress is
below the target (a shape an imported snapshot can carry). -/
def doneEarlyBook : Book :=
  { id := "1", name := "B", author := "A", type := "paper", total := 10,
    category := "mama", coverUrl := "", logs := [{ date := 0, amount := 4 }],
    status := "in-progress", completed := true }

/-- Store holding only `doneEarlyBook`. -/
def doneEarlyState : AppState := { initialState with books := [doneEarlyBook] }

/-- The "Dune" scenario of the spec: paper book, target 400, one log of
100 units. -/
def duneBook : Book :=
  { id := "1", name := "Dune", author := "Herbert", type := "paper", total := 400,
    category := "mama", coverUrl := "", logs := [{ date := 0, amount := 100 }],
    status := "in-progress", completed := false }

/-- Store holding only `duneBook`. -/
def duneState : AppState := { initialState with books := [duneBook] }

/-- Ratchet scenario: create a book, log on three consecutive days ending
today (day 2), then delete the book.  `ratchetS4` has the three-day streak;
`ratchetS5` is the post-deletion state. -/
def ratchetS1 : AppState :=
  (handleAddBook "t0" "1" "Dune" "Herbert" "paper" "mama" "" 400 initialState).1

/-- Ratchet scenario after the first log (day 0). -/
def ratchetS2 : AppState := (handleAddLog 2 "t1" "1" 0 100 ratchetS1).1

/-- Ratchet scenario after the second log (day 1). -/
def ratchetS3 : AppState := (handleAddLog 2 "t2" "1" 1 100 ratchetS2).1

/-- Ratchet scenario after the third log (day 2 = today): streaks (3, 3). -/
def ratchetS4 : AppState := (handleAddLog 2 "t3" "1" 2 100 ratchetS3).1

/-- Ratchet scenario after deleting the only book. -/
def ratchetS5 : AppState := (deleteBook "t4" "1" true ratchetS4).2.1

/-- A store whose only achievement record is already unlocked. -/
def unlockedState : AppState :=
  { initialState with achievements := [{ id := "first-book", unlocked := true }] }

/-- An import document carrying the same achievement id locked. -/
def lockedDoc : ExportDoc :=
  { books := [], currentStreak := 0, longestStreak := 0, activityFeed := [],
    achievements := [{ id := "first-book", unlocked := false }], dailyGoal := 50,
    exportDate := "e" }

/-- Inserting into a descending list is a permutation of consing. -/
theorem insertLogDesc_perm (x : Log) : ∀ l : List Log, (insertLogDesc x l).Perm (x :: l)
  | [] => List.Perm.refl _
  | y :: ys => by
    unfold insertLogDesc
    split
    · exact List.Perm.refl _
    · exact ((insertLogDesc_perm x ys).cons y).trans (List.Perm.swap x y ys)

/-- The insertion-sort fold permutes the accumulator and the input. -/
theorem sortLogsFold_perm :
    ∀ (l acc : List Log), (l.foldl (fun a x => insertLogDesc x a) acc).Perm (acc ++ l)
  | [], acc => by simp
  | x :: xs, acc => by
    refine (sortLogsFold_perm xs (insertLogDesc x acc)).trans ?_
    refine (((insertLogDesc_perm x acc).append_right xs).trans ?_)
    exact List.perm_middle.symm

/-- `sortLogsDesc` permutes its input. -/
theorem sortLogsDesc_perm (l : List Log) : (sortLogsDesc l).Perm l := by
  simpa [sortLogsDesc] using sortLogsFold_perm l []

/-- Sorting the logs does not change their amount sum. -/
theorem sortLogsDesc_sum (l : List Log) :
    ((sortLogsDesc l).map Log.amount).sum = (l.map Log.amount).sum :=
  ((sortLogsDesc_perm l).map Log.amount).sum_eq

/-- Amount sum after pushing one log and re-sorting. -/
theorem sum_push_sorted (l : List Log) (x : Log) :
    ((sortLogsDesc (l ++ [x])).map Log.amount).sum
      = (l.map Log.amount).sum + x.amount := by
  rw [sortLogsDesc_sum]
  simp

/-- `replaceFirst` keeps the length. -/
theorem replaceFirst_length (bookId : String) (nb : Book) :
    ∀ l : List Book, (replaceFirst bookId nb l).length = l.length
  | [] => rfl
  | x :: xs => by
    unfold replaceFirst
    split
    · rfl
    · simpa using replaceFirst_length bookId nb xs

/-- `replaceFirst` leaves every book with a different id untouched. -/
theorem replaceFirst_get?_ne (bookId : String) (nb : Book) :
    ∀ (l : List Book) (i : Nat) (b : Book),
      l.get? i = some b → b.id ≠ bookId →
        (replaceFirst bookId nb l).get? i = some b
  | [], i, b, h, _ => by simp at h
  | x :: xs, i, b, h, hne => by
    by_cases hx : x.id = bookId
    · simp only [replaceFirst, if_pos hx]
      cases i with
      | zero =>
        simp only [List.get?_cons_zero, Option.some.injEq] at h
        exact absurd (h ▸ hx) hne
      | succ n => simpa using h
    · simp only [replaceFirst, if_neg hx]
      cases i with
      | zero => simpa using h
      | succ n =>
        simpa using replaceFirst_get?_ne bookId nb xs n b (by simpa using h) hne

/-- After replacing the found book by one with the same id, `find?` returns
the replacement. -/
theorem find?_replaceFirst (bookId : String) (nb : Book) (hnb : nb.id = bookId) :
    ∀ (l : List Book) (b : Book),
      l.find? (fun bk => bk.id = bookId) = some b →
      (replaceFirst bookId nb l).find? (fun bk => bk.id = bookId) = some nb
  | [], b, h => by simp at h
  | x :: xs, b, h => by
    by_cases hx : x.id = bookId
    · simp only [replaceFirst, if_pos hx]
      simp [List.find?_cons, hnb]
    · simp only [replaceFirst, if_neg hx]
      rw [List.find?_cons_of_neg _ (by simpa using hx)] at h
      rw [List.find?_cons_of_neg _ (by simpa using hx)]
      exact find?_replaceFirst bookId nb hnb xs b h

/-- A book returned by the id lookup carries that id. -/
theorem find?_id {l : List Book} {bookId : String} {b : Book}
    (h : l.find? (fun bk => bk.id = bookId) = some b) : b.id = bookId := by
  have := List.find?_some h
  simpa using this

/-- `updateStatus` only rewrites `status` and `completed`. -/
theorem updateStatus_frame (b : Book) :
    b.updateStatus.id = b.id ∧ b.updateStatus.name = b.name ∧
    b.updateStatus.author = b.author ∧ b.updateStatus.type = b.type ∧
    b.updateStatus.total = b.total ∧ b.updateStatus.category = b.category ∧
    b.updateStatus.coverUrl = b.coverUrl ∧ b.updateStatus.logs = b.logs := by
  simp only [Book.updateStatus]
  split
  · exact ⟨rfl, rfl, rfl, rfl, rfl, rfl, rfl, rfl⟩
  · split
    · exact ⟨rfl, rfl, rfl, rfl, rfl, rfl, rfl, rfl⟩
    · exact ⟨rfl, rfl, rfl, rfl, rfl, rfl, rfl, rfl⟩

/-- `updateStatus` keeps the progress sum (it does not touch the logs). -/
theorem updateStatus_totalProgress (b : Book) :
    b.updateStatus.getTotalProgress = b.getTotalProgress := by
  show ((b.updateStatus.logs).map Log.amount).sum = _
  rw [(updateStatus_frame b).2.2.2.2.2.2.2]
  rfl

/-- Completion flag produced by `updateStatus` from a cleared flag. -/
theorem updateStatus_completed_of_false (b : Book) (h : b.completed = false) :
    (b.updateStatus.completed = true ↔
      b.getTotalProgress ≠ 0 ∧ b.total ≤ b.getTotalProgress) := by
  simp only [Book.updateStatus]
  split
  · next h0 => simp [h, h0]
  · next h0 =>
    split
    · next hge => simp [h0, hge]
    · next hlt => simp [h, hlt]

/-- `updateStatus` on a book whose progress has reached a positive target. -/
theorem updateStatus_completes (b : Book) (h0 : b.getTotalProgress ≠ 0)
    (hge : b.total ≤ b.getTotalProgress) :
    b.updateStatus.status = "completed" ∧ b.updateStatus.completed = true := by
  simp only [Book.updateStatus]
  rw [if_neg h0, if_pos hge]
  exact ⟨rfl, rfl⟩

/-- One achievement-check step never touches the book collection. -/
theorem checkStep_books (nowIso : String) (acc : AppState × List Slice × Bool)
    (e : String × String) : (checkStep nowIso acc e).1.books = acc.1.books := by
  simp only [checkStep]
  split
  · split
    · rfl
    · rfl
  · rfl

/-- The achievement-check fold never touches the book collection. -/
theorem foldl_checkStep_books (nowIso : String) :
    ∀ (cat : List (String × String)) (acc : AppState × List Slice × Bool),
      (cat.foldl (checkStep nowIso) acc).1.books = acc.1.books
  | [], acc => rfl
  | e :: rest, acc => by
    rw [List.foldl_cons, foldl_checkStep_books nowIso rest (checkStep nowIso acc e)]
    exact checkStep_books nowIso acc e

/-- `checkAchievements` never touches the book collection. -/
theorem checkAchievements_books (nowIso : String) (s : AppState) :
    (checkAchievements nowIso s).1.books = s.books := by
  simp only [checkAchievements]
  split
  · exact foldl_checkStep_books nowIso achievementsList (s, [], false)
  · exact foldl_checkStep_books nowIso achievementsList (s, [], false)

/-- The pointwise achievement relation is reflexive. -/
theorem achMono_refl (l : List Ach) : AchMono l l :=
  List.forall₂_same.2 (fun _ _ => ⟨rfl, fun h => h⟩)

/-- The pointwise achievement relation is transitive. -/
theorem achMono_trans {l1 l2 l3 : List Ach} (h1 : AchMono l1 l2)
    (h2 : AchMono l2 l3) : AchMono l1 l3 := by
  induction h1 generalizing l3 with
  | nil => cases h2; exact List.Forall₂.nil
  | cons hab _ ih =>
    cases h2 with
    | cons hbc htl =>
      exact List.Forall₂.cons ⟨hab.1.trans hbc.1, fun u => hbc.2 (hab.2 u)⟩ (ih htl)

/-- Unlocking one entry is monotone. -/
theorem achMono_setUnlockedFirst (aid : String) :
    ∀ l : List Ach, AchMono l (setUnlockedFirst l aid)
  | [] => List.Forall₂.nil
  | a :: rest => by
    unfold setUnlockedFirst
    split
    · exact List.Forall₂.cons ⟨rfl, fun _ => rfl⟩ (achMono_refl rest)
    · exact List.Forall₂.cons ⟨rfl, fun h => h⟩ (achMono_setUnlockedFirst aid rest)

/-- One achievement-check step is monotone on the unlock table. -/
theorem checkStep_achMono (nowIso : String) (acc : AppState × List Slice × Bool)
    (e : String × String) :
    AchMono acc.1.achievements (checkStep nowIso acc e).1.achievements := by
  simp only [checkStep]
  split
  · split
    · exact achMono_setUnlockedFirst e.1 acc.1.achievements
    · exact achMono_refl acc.1.achievements
  · exact achMono_refl acc.1.achievements

/-- The achievement-check fold is monotone on the unlock table. -/
theorem foldl_checkStep_achMono (nowIso : String) :
    ∀ (cat : List (String × String)) (acc : AppState × List Slice × Bool),
      AchMono acc.1.achievements ((cat.foldl (checkStep nowIso) acc).1.achievements)
  | [], acc => achMono_refl _
  | e :: rest, acc => by
    rw [List.foldl_cons]
    exact achMono_trans (checkStep_achMono nowIso acc e)
      (foldl_checkStep_achMono nowIso rest (checkStep nowIso acc e))

/-- `checkAchievements` is monotone on the unlock table. -/
theorem checkAchievements_achMono (nowIso : String) (s : AppState) :
    AchMono s.achievements (checkAchievements nowIso s).1.achievements := by
  simp only [checkAchievements]
  split
  · exact foldl_checkStep_achMono nowIso achievementsList (s, [], false)
  · exact foldl_checkStep_achMono nowIso achievementsList (s, [], false)

/-- `checkAchievements` is monotone relative to any state with the same
unlock table. -/
theorem achMono_checkAchievements_of_eq (nowIso : String) (s0 s : AppState)
    (h : s.achievements = s0.achievements) :
    AchMono s0.achievements (checkAchievements nowIso s).1.achievements := by
  rw [← h]
  exact checkAchievements_achMono nowIso s

/-- C6: when the set of distinct log dates across all books is empty, the
streak recomputation sets both the current and the longest streak to 0. -/
theorem updateStreaks_empty_dates (today : Int) (books : List Book) (longest0 : Nat)
    (h : allLogDates books = []) :
    updateStreaks today books longest0 = (0, 0) := by
  simp [updateStreaks, h]

/-- Witness for C6 at a concrete input: no books, stored longest 5. -/
theorem updateStreaks_empty_dates_witness :
    updateStreaks 0 [] 5 = (0, 0) :=
  updateStreaks_empty_dates 0 [] 5 rfl

/-- C1 counterexample: create a book, log three consecutive days ending
today, delete the book; the next streak recomputation drops
`longestStreak` from 3 to 0, so the ratchet does not survive the deletion
of every book that contributed log dates. -/
theorem longest_streak_drops_after_full_deletion :
    ratchetS4.longestStreak = 3 ∧
    ratchetS5.longestStreak = 3 ∧
    ratchetS5.books = [] ∧
    (updateStreaks 2 ratchetS5.books ratchetS5.longestStreak).2 = 0 := by
  refine ⟨by decide, by decide, by decide, by decide⟩

/-- C1 amended: as long as at least one log date remains, the streak
recomputation never lowers `longestStreak` (the stored value enters the
final `max`); the ratchet only breaks when the date set becomes empty. -/
theorem updateStreaks_longest_ratchet (today : Int) (books : List Book) (longest0 : Nat)
    (h : allLogDates books ≠ []) :
    longest0 ≤ (updateStreaks today books longest0).2 := by
  simp only [updateStreaks]
  rw [if_neg (fun hh => h (List.length_eq_zero.mp hh))]
  exact le_trans (Nat.le_max_left _ _) (Nat.le_max_left _ _)

/-- Witness for the C1 ratchet at a concrete input: one log, stored
longest 2. -/
theorem updateStreaks_longest_ratchet_witness :
    2 ≤ (updateStreaks 0 [duneBook] 2).2 :=
  updateStreaks_longest_ratchet 0 [duneBook] 2 (by decide)

/-- C2 counterexample: at 999 of 1000 units the rounded percentage is
already 100 although the target is not reached, so "equals 100 exactly
when totalProgress >= target" fails. -/
theorem percentage_100_below_target :
    nearTargetBook.getProgressPercentage = 100 ∧
    nearTargetBook.getTotalProgress < nearTargetBook.total := by
  refine ⟨by decide, by decide⟩

/-- C2 amended: the percentage always lies in [0, 100] (it is a `Nat`), is
0 for a zero target, is 100 whenever the target is reached, and for a
positive target it is 100 exactly when `200 * totalProgress >= 199 *
target` — rounding reaches 100 slightly below the target. -/
theorem progressPercentage_correct (b : Book) :
    b.getProgressPercentage ≤ 100 ∧
    (b.total = 0 → b.getProgressPercentage = 0) ∧
    (b.total ≠ 0 → b.total ≤ b.getTotalProgress → b.getProgressPercentage = 100) ∧
    (b.total ≠ 0 →
      (b.getProgressPercentage = 100 ↔ 199 * b.total ≤ 200 * b.getTotalProgress)) := by
  by_cases ht : b.total = 0
  · simp [Book.getProgressPercentage, ht]
  · have h2t : 0 < 2 * b.total := by omega
    have hiff : b.getProgressPercentage = 100 ↔
        199 * b.total ≤ 200 * b.getTotalProgress := by
      simp only [Book.getProgressPercentage, if_neg ht]
      rw [min_eq_right_iff, Nat.le_div_iff_mul_le h2t]
      omega
    refine ⟨?_, fun h => absurd h ht, fun _ hge => hiff.mpr (by omega), fun _ => hiff⟩
    simp only [Book.getProgressPercentage, if_neg ht]
    exact min_le_right _ _

/-- Witness for C2 at a concrete input: the "Dune" book at 100 of 400. -/
theorem progressPercentage_correct_witness :
    duneBook.getProgressPercentage ≤ 100 ∧
    (duneBook.getProgressPercentage = 100 ↔
      199 * duneBook.total ≤ 200 * duneBook.getTotalProgress) :=
  ⟨(progressPercentage_correct duneBook).1,
   (progressPercentage_correct duneBook).2.2.2 (by decide)⟩

/-- C4: every operation referencing an unknown book id leaves the whole
state unchanged and performs no persistence write — appending a log,
toggling completion, changing the category, and deleting (confirmed, which
aborts on the failed name lookup before any mutation, or cancelled). -/
theorem unknown_id_is_noop (today : Int) (nowIso bookId newCategory : String)
    (date amount : Int) (s : AppState)
    (h : s.books.find? (fun b => b.id = bookId) = none) :
    handleAddLog today nowIso bookId date amount s = (s, []) ∧
    toggleBookCompletion today nowIso bookId s = (s, []) ∧
    changeBookCategory bookId newCategory s = (s, []) ∧
    (deleteBook nowIso bookId true s).2 = (s, []) ∧
    (deleteBook nowIso bookId false s).2 = (s, []) := by
  refine ⟨?_, ?_, ?_, ?_, ?_⟩
  · simp only [handleAddLog, h]
  · simp only [toggleBookCompletion, h]
  · simp only [changeBookCategory, h]
  · simp [deleteBook, h]
  · simp [deleteBook, h]

/-- Witness for C4 at a concrete input: the empty store with id "zzz". -/
theorem unknown_id_is_noop_witness :
    handleAddLog 0 "t" "zzz" 0 5 initialState = (initialState, []) ∧
    toggleBookCompletion 0 "t" "zzz" initialState = (initialState, []) ∧
    changeBookCategory "zzz" "choice" initialState = (initialState, []) ∧
    (deleteBook "t" "zzz" true initialState).2 = (initialState, []) ∧
    (deleteBook "t" "zzz" false initialState).2 = (initialState, []) :=
  unknown_id_is_noop 0 "t" "zzz" "choice" 0 5 initialState rfl

/-- C7: a create-book input whose trimmed name or author is empty or whose
target is non-positive, and an append-log input with non-positive amount,
are rejected with the whole state unchanged and no persistence write. -/
theorem validation_rejected_before_mutation
    (today : Int)
    (nowIso freshId rawName rawAuthor ty category rawCoverUrl bookId : String)
    (total date amount : Int) (s : AppState)
    (hbook : jsTrim rawName = "" ∨ jsTrim rawAuthor = "" ∨ total ≤ 0)
    (hamount : amount ≤ 0) :
    handleAddBook nowIso freshId rawName rawAuthor ty category rawCoverUrl total s
      = (s, []) ∧
    handleAddLog today nowIso bookId date amount s = (s, []) := by
  constructor
  · simp only [handleAddBook, if_pos hbook]
  · simp only [handleAddLog]
    cases hfind : s.books.find? (fun b => b.id = bookId) with
    | none => rfl
    | some b => simp [hamount]

/-- Witness for C7 at a concrete input: blank name, zero log amount. -/
theorem validation_rejected_before_mutation_witness :
    handleAddBook "t" "9" " " "Auth" "paper" "mama" "" 100 initialState
      = (initialState, []) ∧
    handleAddLog 0 "t" "1" 0 0 initialState = (initialState, []) :=
  validation_rejected_before_mutation 0 "t" "9" " " "Auth" "paper" "mama" "" "1"
    100 0 0 initialState (Or.inl (by decide)) (by decide)

/-- C3 counterexample: toggling completion off on a book whose progress has
reached the target does not end with the flag cleared — `updateStatus`
immediately re-sets it, so the flag stays `true`. -/
theorem toggle_off_keeps_flag_at_target :
    doneBook.completed = true ∧
    doneBook.total ≤ doneBook.getTotalProgress ∧
    ((toggleBookCompletion 0 "t" "1" doneState).1.books.find?
        (fun bk => bk.id = "1")).map Book.completed = some true := by
  refine ⟨by decide, by decide, by decide⟩

/-- C3 amended: toggling completion on a completed book removes no log and
keeps `totalProgress` unchanged; the flag is first cleared but the status
recomputation re-sets it whenever `0 < totalProgress` and
`totalProgress >= target`, so the flag ends `false` only below the target
(or at progress 0). -/
theorem toggle_off_clears_flag_only_below_target
    (today : Int) (nowIso bookId : String) (s : AppState) (b : Book)
    (hfind : s.books.find? (fun bk => bk.id = bookId) = some b)
    (hc : b.completed = true) :
    ∃ b', (toggleBookCompletion today nowIso bookId s).1.books.find?
        (fun bk => bk.id = bookId) = some b' ∧
      b'.logs = b.logs ∧
      b'.getTotalProgress = b.getTotalProgress ∧
      (b'.completed = true ↔
        b.getTotalProgress ≠ 0 ∧ b.total ≤ b.getTotalProgress) := by
  have hid : b.id = bookId := find?_id hfind
  simp only [toggleBookCompletion, hfind, hc, eq_self_iff_true, if_true]
  refine ⟨({ b with completed := false } : Book).updateStatus, ?_, ?_, ?_, ?_⟩
  · rw [checkAchievements_books]
    exact find?_replaceFirst bookId _ (by rw [(updateStatus_frame _).1]; exact hid)
      s.books b hfind
  · rw [(updateStatus_frame _).2.2.2.2.2.2.2]
  · rw [updateStatus_totalProgress]
    exact rfl
  · exact updateStatus_completed_of_false _ rfl

/-- Witness for the amended C3 at a concrete input: a completed book at 4
of 10 units; the flag ends cleared. -/
theorem toggle_off_clears_flag_only_below_target_witness :
    ∃ b', (toggleBookCompletion 0 "t" "1" doneEarlyState).1.books.find?
        (fun bk => bk.id = "1") = some b' ∧
      b'.logs = doneEarlyBook.logs ∧
      b'.getTotalProgress = doneEarlyBook.getTotalProgress ∧
      (b'.completed = true ↔
        doneEarlyBook.getTotalProgress ≠ 0 ∧
          doneEarlyBook.total ≤ doneEarlyBook.getTotalProgress) :=
  toggle_off_clears_flag_only_below_target 0 "t" "1" doneEarlyState doneEarlyBook
    (by decide) (by decide)

/-- C5: toggling completion on an uncompleted book with a positive
remaining amount appends exactly one synthetic log dated today carrying the
remaining amount, after which the progress equals the target, the status is
completed and the flag is set. -/
theorem toggle_on_completes
    (today : Int) (nowIso bookId : String) (s : AppState) (b : Book)
    (hfind : s.books.find? (fun bk => bk.id = bookId) = some b)
    (hc : b.completed = false)
    (hr : 0 < b.getRemainingAmount) :
    ∃ b', (toggleBookCompletion today nowIso bookId s).1.books.find?
        (fun bk => bk.id = bookId) = some b' ∧
      b'.logs.Perm ({ date := today, amount := b.getRemainingAmount } :: b.logs) ∧
      b'.logs.length = b.logs.length + 1 ∧
      b'.getTotalProgress = b.total ∧
      b'.status = "completed" ∧
      b'.completed = true := by
  have hid : b.id = bookId := find?_id hfind
  have hlt : b.getTotalProgress < b.total := by
    have h0 := hr
    simp only [Book.getRemainingAmount] at h0
    omega
  have hprog : ∀ bc : Book,
      bc.logs = sortLogsDesc (b.logs ++ [{ date := today, amount := b.getRemainingAmount }]) →
      bc.getTotalProgress = b.total := by
    intro bc hlg
    show ((bc.logs).map Log.amount).sum = b.total
    rw [hlg, sum_push_sorted]
    have hsum : (b.logs.map Log.amount).sum = b.getTotalProgress := rfl
    simp only [Book.getRemainingAmount]
    omega
  simp only [toggleBookCompletion, hfind, hc, hr, Bool.false_eq_true, if_false,
    if_true, Bool.not_false]
  refine ⟨({ b with
    logs := sortLogsDesc (b.logs ++ [{ date := today, amount := b.getRemainingAmount }]),
    completed := true } : Book).updateStatus, ?_, ?_, ?_, ?_, ?_, ?_⟩
  · rw [checkAchievements_books]
    exact find?_replaceFirst bookId _ (by rw [(updateStatus_frame _).1]; exact hid) _ _
      (find?_replaceFirst bookId
        ({ b with
          logs := sortLogsDesc
            (b.logs ++ [{ date := today, amount := b.getRemainingAmount }]),
          completed := false } : Book) hid s.books b hfind)
  · rw [(updateStatus_frame _).2.2.2.2.2.2.2]
    exact (sortLogsDesc_perm _).trans (List.perm_append_singleton _ _)
  · rw [(updateStatus_frame _).2.2.2.2.2.2.2, (sortLogsDesc_perm _).length_eq]
    simp
  · rw [updateStatus_totalProgress]
    exact hprog _ rfl
  · refine (updateStatus_completes _ ?_ ?_).1
    · rw [hprog _ rfl]; omega
    · rw [hprog _ rfl]
  · refine (updateStatus_completes _ ?_ ?_).2
    · rw [hprog _ rfl]; omega
    · rw [hprog _ rfl]

/-- Witness for C5 at a concrete input: the "Dune" book at 100 of 400;
toggling appends the 300-unit synthetic log. -/
theorem toggle_on_completes_witness :
    ∃ b', (toggleBookCompletion 3 "t" "1" duneState).1.books.find?
        (fun bk => bk.id = "1") = some b' ∧
      b'.logs.Perm ({ date := 3, amount := duneBook.getRemainingAmount } :: duneBook.logs) ∧
      b'.logs.length = duneBook.logs.length + 1 ∧
      b'.getTotalProgress = duneBook.total ∧
      b'.status = "completed" ∧
      b'.completed = true :=
  toggle_on_completes 3 "t" "1" duneState duneBook (by decide) (by decide) (by decide)

/-- C10: appending a log to a known book id with a positive amount keeps
the collection length, leaves every book with a different id untouched, and
rewrites on the target book only the logs (one appended entry, re-sorted)
while id, name, author, type, total, category and cover are preserved. -/
theorem addLog_frame
    (today : Int) (nowIso bookId : String) (date amount : Int) (s : AppState)
    (b : Book)
    (hfind : s.books.find? (fun bk => bk.id = bookId) = some b)
    (hamt : 0 < amount) :
    ((handleAddLog today nowIso bookId date amount s).1.books.length
      = s.books.length) ∧
    (∀ (i : Nat) (b0 : Book), s.books.get? i = some b0 → b0.id ≠ bookId →
      (handleAddLog today nowIso bookId date amount s).1.books.get? i = some b0) ∧
    (∃ b', (handleAddLog today nowIso bookId date amount s).1.books.find?
        (fun bk => bk.id = bookId) = some b' ∧
      b'.id = b.id ∧ b'.name = b.name ∧ b'.author = b.author ∧
      b'.type = b.type ∧ b'.total = b.total ∧ b'.category = b.category ∧
      b'.coverUrl = b.coverUrl ∧
      b'.logs.Perm ({ date := date, amount := amount.toNat } :: b.logs)) := by
  have hid : b.id = bookId := find?_id hfind
  have hna : ¬ amount ≤ 0 := by omega
  simp only [handleAddLog, hfind, hna, if_false]
  refine ⟨?_, ?_, ?_⟩
  · rw [checkAchievements_books]
    exact replaceFirst_length bookId _ s.books
  · intro i b0 h0 hne
    rw [checkAchievements_books]
    exact replaceFirst_get?_ne bookId _ s.books i b0 h0 hne
  · refine ⟨({ b with
      logs := sortLogsDesc (b.logs ++ [{ date := date, amount := amount.toNat }]) }
        : Book).updateStatus, ?_, ?_, ?_, ?_, ?_, ?_, ?_, ?_, ?_⟩
    · rw [checkAchievements_books]
      exact find?_replaceFirst bookId _ (by rw [(updateStatus_frame _).1]; exact hid)
        s.books b hfind
    · rw [(updateStatus_frame _).1]
    · rw [(updateStatus_frame _).2.1]
    · rw [(updateStatus_frame _).2.2.1]
    · rw [(updateStatus_frame _).2.2.2.1]
    · rw [(updateStatus_frame _).2.2.2.2.1]
    · rw [(updateStatus_frame _).2.2.2.2.2.1]
    · rw [(updateStatus_frame _).2.2.2.2.2.2.1]
    · rw [(updateStatus_frame _).2.2.2.2.2.2.2]
      exact (sortLogsDesc_perm _).trans (List.perm_append_singleton _ _)

/-- C8 counterexample: importing a snapshot whose achievements slice holds
`unlocked = false` for an id that is currently `unlocked = true` reverts
the unlock — the slice is replaced wholesale. -/
theorem import_reverts_unlock :
    unlockedState.achievements = [{ id := "first-book", unlocked := true }] ∧
    (importData "i" true lockedDoc unlockedState).1.achievements
      = [{ id := "first-book", unlocked := false }] := by
  refine ⟨by decide, by decide⟩

/-- C8 amended: achievement unlock state is monotonic under every in-session
operation — adding a book or a log, toggling completion, deleting a book,
changing a category, and re-evaluation itself (each positionally preserves
ids and never clears an unlocked flag) — but snapshot import replaces the
achievements slice wholesale and can revert it. -/
theorem achievements_monotone_in_session
    (today : Int)
    (nowIso freshId rawName rawAuthor ty category rawCoverUrl bookId
      newCategory : String)
    (total date amount : Int) (confirmed : Bool) (s : AppState) :
    AchMono s.achievements
      (handleAddBook nowIso freshId rawName rawAuthor ty category rawCoverUrl
        total s).1.achievements ∧
    AchMono s.achievements
      (handleAddLog today nowIso bookId date amount s).1.achievements ∧
    AchMono s.achievements
      (toggleBookCompletion today nowIso bookId s).1.achievements ∧
    AchMono s.achievements (deleteBook nowIso bookId confirmed s).2.1.achievements ∧
    AchMono s.achievements (changeBookCategory bookId newCategory s).1.achievements ∧
    AchMono s.achievements (checkAchievements nowIso s).1.achievements := by
  refine ⟨?_, ?_, ?_, ?_, ?_, checkAchievements_achMono nowIso s⟩
  · simp only [handleAddBook]
    split
    · exact achMono_refl _
    · exact achMono_checkAchievements_of_eq nowIso s _ rfl
  · simp only [handleAddLog]
    split
    · exact achMono_refl _
    · split
      · exact achMono_refl _
      · exact achMono_checkAchievements_of_eq nowIso s _ rfl
  · simp only [toggleBookCompletion]
    split
    · exact achMono_refl _
    · next book hbook =>
      by_cases hcb : book.completed
      · simp only [hcb, if_true]
        exact achMono_checkAchievements_of_eq nowIso s _ rfl
      · simp only [Bool.not_eq_true] at hcb
        simp only [hcb, Bool.false_eq_true, if_false]
        exact achMono_checkAchievements_of_eq nowIso s _ rfl
  · simp only [deleteBook]
    split
    · split
      · exact achMono_refl _
      · exact achMono_refl _
    · exact achMono_refl _
  · simp only [changeBookCategory]
    split
    · exact achMono_refl _
    · exact achMono_refl _

/-- C9 counterexample: exporting the empty initial store and importing the
document back does not reproduce the activity feed — the import itself
records an import event, so the feed differs from the original. -/
theorem roundtrip_changes_feed :
    (importData "i" true (exportData "e" initialState).1
        (exportData "e" initialState).2.1).1.activityFeed
      ≠ initialState.activityFeed := by
  decide

/-- The per-book import reconstruction is the identity whenever category and
status are non-empty (the `||` defaults never fire). -/
theorem importBook_self (b : Book) (hcat : b.category ≠ "")
    (hstat : b.status ≠ "") : importBook b = b := by
  obtain ⟨i, n, a, t, tot, c, cov, lg, st, comp⟩ := b
  simp only [importBook]
  rw [if_neg hcat, if_neg hstat]
  by_cases hcov : cov = ""
  · subst hcov; rfl
  · rw [if_neg hcov]

/-- C9 amended: export followed immediately by import reproduces the books,
both streak counters, the achievements and the daily goal exactly (for any
store whose books carry non-empty category and status, as every book
created by the app does); the activity feed however is restored to its
pre-export contents and then receives one new import event, exactly as
`addActivity` would append it to the original feed. -/
theorem export_import_roundtrip (nowIso1 nowIso2 : String) (s : AppState)
    (hcat : ∀ b ∈ s.books, b.category ≠ "")
    (hstat : ∀ b ∈ s.books, b.status ≠ "") :
    ((importData nowIso2 true (exportData nowIso1 s).1
        (exportData nowIso1 s).2.1).1.books = s.books) ∧
    ((importData nowIso2 true (exportData nowIso1 s).1
        (exportData nowIso1 s).2.1).1.currentStreak = s.currentStreak) ∧
    ((importData nowIso2 true (exportData nowIso1 s).1
        (exportData nowIso1 s).2.1).1.longestStreak = s.longestStreak) ∧
    ((importData nowIso2 true (exportData nowIso1 s).1
        (exportData nowIso1 s).2.1).1.achievements = s.achievements) ∧
    ((importData nowIso2 true (exportData nowIso1 s).1
        (exportData nowIso1 s).2.1).1.dailyGoal = s.dailyGoal) ∧
    ((importData nowIso2 true (exportData nowIso1 s).1
        (exportData nowIso1 s).2.1).1.activityFeed
      = (addActivity "Импорт" "Данните са импортирани успешно" "" nowIso2
          s).1.activityFeed) := by
  have hbooks : s.books.map importBook = s.books := by
    have h1 : s.books.map importBook = s.books.map id :=
      List.map_congr_left (fun b hb => importBook_self b (hcat b hb) (hstat b hb))
    simpa using h1
  refine ⟨hbooks, rfl, rfl, rfl, ?_, rfl⟩
  show (if s.dailyGoal ≠ 0 then s.dailyGoal else s.dailyGoal) = s.dailyGoal
  split
  · rfl
  · rfl

/-- Witness for the amended C9 at a concrete input: the initial store. -/
theorem export_import_roundtrip_witness :
    ((importData "i" true (exportData "e" initialState).1
        (exportData "e" initialState).2.1).1.books = initialState.books) ∧
    ((importData "i" true (exportData "e" initialState).1
        (exportData "e" initialState).2.1).1.currentStreak
      = initialState.currentStreak) ∧
    ((importData "i" true (exportData "e" initialState).1
        (exportData "e" initialState).2.1).1.longestStreak
      = initialState.longestStreak) ∧
    ((importData "i" true (exportData "e" initialState).1
        (exportData "e" initialState).2.1).1.achievements
      = initialState.achievements) ∧
    ((importData "i" true (exportData "e" initialState).1
        (exportData "e" initialState).2.1).1.dailyGoal
      = initialState.dailyGoal) ∧
    ((importData "i" true (exportData "e" initialState).1
        (exportData "e" initialState).2.1).1.activityFeed
      = (addActivity "Импорт" "Данните са импортирани успешно" "" "i"
          initialState).1.activityFeed) :=
  export_import_roundtrip "e" "i" initialState (by simp [initialState])
    (by simp [initialState])

/-- Witness for C10 at a concrete input: logging 50 units on "Dune". -/
theorem addLog_frame_witness :
    ((handleAddLog 1 "t" "1" 1 50 duneState).1.books.length
      = duneState.books.length) ∧
    (∀ (i : Nat) (b0 : Book), duneState.books.get? i = some b0 → b0.id ≠ "1" →
      (handleAddLog 1 "t" "1" 1 50 duneState).1.books.get? i = some b0) ∧
    (∃ b', (handleAddLog 1 "t" "1" 1 50 duneState).1.books.find?
        (fun bk => bk.id = "1") = some b' ∧
      b'.id = duneBook.id ∧ b'.name = duneBook.name ∧
      b'.author = duneBook.author ∧ b'.type = duneBook.type ∧
      b'.total = duneBook.total ∧ b'.category = duneBook.category ∧
      b'.coverUrl = duneBook.coverUrl ∧
      b'.logs.Perm ({ date := 1, amount := (50 : Int).toNat } :: duneBook.logs)) :=
  addLog_frame 1 "t" "1" 1 50 duneState duneBook (by decide) (by decide)

end BookTracking
